import Mathlib

/-!
Shallow embedding of the concurrency core of a threaded network-audit
script.  The script drains a queue of device IP addresses with a pool of
worker threads; each worker connects to its device, detects the OS
family, runs a fixed command set, correlates version / interface /
neighbor records, and writes rows to a lock-guarded CSV writer.

The embedding mirrors the source module directly:
* records returned by the session provider are association lists of
  string fields (the provider's documented contract);
* a CSV row dictionary maps a column name to a value that is either a
  string or the Python value None (`Option String`);
* the body of one device's session is compiled to a trace of events
  (session opened, command sent, row written, session closed) together
  with an optional uncaught exception, and the surrounding handlers turn
  that exception into exactly one failure row;
* the worker loop, queue and lock are modelled as small-step transition
  systems over explicit states.
-/

namespace CiscoAudit

/-- A Python exception relevant to the script: the two netmiko exception
classes it catches by name, and a catch-all for every other exception,
carrying the exception's message. -/
inductive PyExc where
  | auth
  | timeout
  | other (msg : String)
deriving DecidableEq, Repr

/-- A structured record returned by the session provider for one parsed
line of command output: a key/value association list. -/
structure Record where
  entries : List (String × String)
deriving DecidableEq, Repr

/-- Python dict lookup with default None: `item.get(k)`. -/
def Record.get (r : Record) (k : String) : Option String :=
  (r.entries.find? (fun e => e.1 == k)).map (fun e => e.2)

/-- Python dict lookup with an explicit default: `item.get(k, d)`. -/
def Record.getD (r : Record) (k d : String) : String :=
  (r.get k).getD d

/-- Python bracket lookup `item[k]`: raises KeyError when the key is
missing, which the script's catch-all handler sees as a generic
exception. -/
def Record.getItem (r : Record) (k : String) : Except PyExc String :=
  match r.get k with
  | some v => Except.ok v
  | none => Except.error (PyExc.other ("KeyError: " ++ k))

/-- A CSV row dictionary: column name to value, where a value is either
a string or the Python value None. -/
abbrev Row := List (String × Option String)

/-- Lookup of a column in a row dictionary: distinguishes an absent key
(`none`) from a key present with value None (`some none`). -/
def rowGet (r : Row) (k : String) : Option (Option String) :=
  (r.find? (fun e => e.1 == k)).map (fun e => e.2)

/-- The fixed CSV column header of the output file. -/
def fieldnames : List String :=
  ["hostname", "ip_address", "model", "version", "status", "interface",
   "interface_ip", "interface_status", "protocol_status", "neighbor_device",
   "neighbor_platform", "neighbor_interface"]

/-- How `csv.DictWriter` renders one cell: an absent key becomes the
writer's restval "N/A", a key present with value None becomes the empty
string, and a string value is written as is. -/
def renderCell (r : Row) (k : String) : String :=
  match rowGet r k with
  | none => "N/A"
  | some none => ""
  | some (some s) => s

/-- The full rendered CSV line for one row dictionary, one cell per
column of the fixed header. -/
def renderRow (r : Row) : List String :=
  fieldnames.map (renderCell r)

/-- The command set for one OS family: version and interface commands
are always present, the CDP neighbor command is absent for ASA. -/
structure CommandSet where
  version : String
  interfaces : String
  cdp : Option String
deriving DecidableEq, Repr

/-- COMMAND_MAP of the script: detected OS family to command set; an
absent entry marks the family unsupported. -/
def COMMAND_MAP (os : String) : Option CommandSet :=
  if os = "cisco_ios" then
    some ⟨"show version", "show ip interface brief", some "show cdp neighbors detail"⟩
  else if os = "cisco_nxos" then
    some ⟨"show version", "show ip interface brief", some "show cdp neighbors detail"⟩
  else if os = "cisco_asa" then
    some ⟨"show version", "show interface ip brief", none⟩
  else
    none

/-- An open session to one device, as the script observes it: the
auto-detected device type, the prompt string, and the structured result
of each command (`send_command` with textfsm), which may itself raise. -/
structure Conn where
  device_type : String
  find_prompt : String
  send_command : String → Except PyExc (List Record)

/-- The external world for one device: ConnectHandler either returns an
open session or raises an authentication, timeout or other exception. -/
structure DeviceInput where
  connect : Except PyExc Conn

/-- Observable events of one device's session task. -/
inductive Ev where
  | opened
  | sent (cmd : String)
  | wrote (row : Row)
  | closed
deriving DecidableEq, Repr

/-- The two-column failure row literal the script writes on every error
path: ip_address and status only. -/
def mkFailRow (ip status : String) : Row :=
  [("ip_address", some ip), ("status", some status)]

/-- Hostname fallback: `find_prompt().replace("#", "").strip()`. -/
def promptHostname (prompt : String) : String :=
  (prompt.replace "#" "").trim

/-- The neighbor data stored per local interface in the CDP lookup
dictionary. -/
structure CdpInfo where
  neighbor : String
  neighbor_ip : String
  neighbor_platform : String
  neighbor_port : String
deriving DecidableEq, Repr

/-- One step of the CDP lookup dict comprehension: bracket lookups of
the five fields of one neighbor record, then insertion that overwrites
any earlier entry for the same local port. -/
def cdpInsert (acc : String → Option CdpInfo) (item : Record) :
    Except PyExc (String → Option CdpInfo) :=
  match item.getItem "local_port" with
  | Except.error e => Except.error e
  | Except.ok k =>
    match item.getItem "destination_host" with
    | Except.error e => Except.error e
    | Except.ok n =>
      match item.getItem "management_ip" with
      | Except.error e => Except.error e
      | Except.ok nip =>
        match item.getItem "platform" with
        | Except.error e => Except.error e
        | Except.ok plat =>
          match item.getItem "remote_port" with
          | Except.error e => Except.error e
          | Except.ok port =>
            Except.ok (fun q => if q = k then some ⟨n, nip, plat, port⟩ else acc q)

/-- The CDP lookup dict comprehension over the neighbor records, keyed
by local interface, later records overwriting earlier ones. -/
def buildCdpLookupFrom (acc : String → Option CdpInfo) :
    List Record → Except PyExc (String → Option CdpInfo)
  | [] => Except.ok acc
  | item :: rest =>
    match cdpInsert acc item with
    | Except.error e => Except.error e
    | Except.ok acc2 => buildCdpLookupFrom acc2 rest

/-- The CDP lookup built from an empty dictionary. -/
def buildCdpLookup (cdp_data : List Record) :
    Except PyExc (String → Option CdpInfo) :=
  buildCdpLookupFrom (fun _ => none) cdp_data

/-- The device summary row written when no interface data parsed. -/
def summaryRow (ip hostname : String) (device_info : Record) : Row :=
  [("hostname", some hostname), ("ip_address", some ip),
   ("model", device_info.get "hardware"), ("version", device_info.get "version"),
   ("status", some "OK")]

/-- The `cdp_lookup.get(local_int, ...)` step of the row construction:
the local interface name (itself possibly absent from the interface
record) looked up in the CDP dictionary. -/
def neighborLookupHit (cdp_lookup : String → Option CdpInfo) (iface : Record) :
    Option CdpInfo :=
  match iface.get "intf" with
  | none => none
  | some k => cdp_lookup k

/-- One per-interface row: shared hostname / model / version, the
interface fields, and the neighbor fields from the CDP lookup when the
interface name matches (an empty lookup result leaves them None). -/
def ifaceRow (ip hostname : String) (device_info : Record)
    (cdp_lookup : String → Option CdpInfo) (iface : Record) : Row :=
  let local_int := iface.get "intf"
  let info := neighborLookupHit cdp_lookup iface
  [("hostname", some hostname), ("ip_address", some ip),
   ("model", device_info.get "hardware"), ("version", device_info.get "version"),
   ("interface", local_int),
   ("interface_ip", iface.get "ipaddr"),
   ("interface_status", iface.get "status"),
   ("protocol_status", iface.get "proto"),
   ("neighbor_device", info.map CdpInfo.neighbor),
   ("neighbor_platform", info.map CdpInfo.neighbor_platform),
   ("neighbor_interface", info.map CdpInfo.neighbor_port),
   ("status", some "OK")]

/-- The optional CDP step of the command phase: ASA has no CDP command,
so nothing is sent and the neighbor data stays the empty list the script
initialised it to; otherwise the CDP command is sent. -/
def cdpFetch (conn : Conn) (commands : CommandSet) :
    List Ev × Except PyExc (List Record) :=
  match commands.cdp with
  | none => ([], Except.ok [])
  | some c => ([Ev.sent c], conn.send_command c)

/-- The correlation phase, lines 94-141 of the source: check the parsed
version data, build the CDP lookup, and write either the single summary
row or one row per interface record.  Returns the write events and the
exception, if any, raised while building the lookup. -/
def correlate (ip : String) (conn : Conn)
    (version_data interface_data cdp_data : List Record) :
    List Ev × Option PyExc :=
  match version_data with
  | [] => ([Ev.wrote (mkFailRow ip "Failed to parse version")], none)
  | device_info :: _ =>
    let hostname := device_info.getD "hostname" (promptHostname conn.find_prompt)
    match buildCdpLookup cdp_data with
    | Except.error e => ([], some e)
    | Except.ok cdp_lookup =>
      match interface_data with
      | [] => ([Ev.wrote (summaryRow ip hostname device_info)], none)
      | _ =>
        (interface_data.map
          (fun iface => Ev.wrote (ifaceRow ip hostname device_info cdp_lookup iface)),
         none)

/-- The body of the with-block for one connected session, lines 76-141
of the source: detect OS, send the command set, then correlate.  Returns
the events that happened and the exception, if any, escaping the body
into the handlers. -/
def sessionBody (ip : String) (conn : Conn) : List Ev × Option PyExc :=
  let os := conn.device_type
  match COMMAND_MAP os with
  | none =>
    ([Ev.wrote (mkFailRow ip ("Unsupported OS: " ++ os))], none)
  | some commands =>
    match conn.send_command commands.version with
    | Except.error e => ([Ev.sent commands.version], some e)
    | Except.ok version_data =>
      match conn.send_command commands.interfaces with
      | Except.error e =>
        ([Ev.sent commands.version, Ev.sent commands.interfaces], some e)
      | Except.ok interface_data =>
        let cdpStep := cdpFetch conn commands
        let sents := [Ev.sent commands.version, Ev.sent commands.interfaces] ++ cdpStep.1
        match cdpStep.2 with
        | Except.error e => (sents, some e)
        | Except.ok cdp_data =>
          let res := correlate ip conn version_data interface_data cdp_data
          (sents ++ res.1, res.2)

/-- The failure row each exception handler writes, by exception kind. -/
def excRow (ip : String) : PyExc → Row
  | PyExc.auth => mkFailRow ip "Authentication Failed"
  | PyExc.timeout => mkFailRow ip "Connection Timeout"
  | PyExc.other m => mkFailRow ip ("Error: " ++ m)

/-- One full device session task: connect (the handlers turn a connect
exception directly into a failure row), run the with-block body, close
the session on the way out of the with-block, and convert any exception
escaping the body into exactly one failure row. -/
def deviceTask (ip : String) (inp : DeviceInput) : List Ev :=
  match inp.connect with
  | Except.error e => [Ev.wrote (excRow ip e)]
  | Except.ok conn =>
    let body := sessionBody ip conn
    let base := Ev.opened :: body.1 ++ [Ev.closed]
    match body.2 with
    | none => base
    | some e => base ++ [Ev.wrote (excRow ip e)]

/-- The rows written during a trace of events. -/
def rowsOf (evts : List Ev) : List Row :=
  evts.filterMap (fun e => match e with | Ev.wrote r => some r | _ => none)

/-- The rows one device's task writes to the CSV writer. -/
def deviceRows (ip : String) (inp : DeviceInput) : List Row :=
  rowsOf (deviceTask ip inp)

/-! ## Worker pool and queue

The worker loop of the source is
`while not work_queue.empty(): ip = work_queue.get()` followed by the
device task and a `finally` block running `task_done`.  `get()` with no
arguments blocks; a worker that passed the `empty()` check while the
queue still held items, and whose items were then taken by another
worker, blocks in `get()` forever.  The model makes the two halves of
that pattern separate atomic steps. -/

/-- The queue.Queue state the script observes: the pending items and
the unfinished-task counter (incremented by put, decremented by
task_done, waited on by join). -/
structure WQueue where
  items : List String
  unfinished : Nat
deriving DecidableEq, Repr

/-- Program counter of one worker thread in the loop of device_worker:
about to evaluate the `empty()` test, about to call the blocking
`get()`, processing a popped device (the whole task body plus the
`finally` collapsed into one step), or exited. -/
inductive WPC where
  | atLoop
  | atGet
  | processing (ip : String)
  | finished
deriving DecidableEq, Repr

/-- Global state of the orchestrated run: the queue, each worker's
program counter, and two history variables — the items popped so far
and the number of task_done calls so far. -/
structure PoolSys where
  q : WQueue
  workers : List WPC
  popped : List String
  doneCount : Nat
deriving DecidableEq, Repr

/-- Whether a worker currently holds a popped device. -/
def isProcessing : WPC → Bool
  | WPC.processing _ => true
  | _ => false

/-- Number of workers currently holding a popped device. -/
def procCount (ws : List WPC) : Nat :=
  ws.countP isProcessing

/-- One atomic step of worker i, when enabled: the `empty()` test
branches to exit or to `get()`; `get()` pops the head item when one
exists and blocks (no step) otherwise; finishing the task body runs
`task_done` and returns to the loop test.  A finished worker takes no
step. -/
def poolStep (s : PoolSys) (i : Nat) : Option PoolSys :=
  match s.workers.get? i with
  | some WPC.atLoop =>
    if s.q.items.isEmpty then
      some { s with workers := s.workers.set i WPC.finished }
    else
      some { s with workers := s.workers.set i WPC.atGet }
  | some WPC.atGet =>
    match s.q.items with
    | [] => none
    | x :: rest =>
      some { q := { items := rest, unfinished := s.q.unfinished },
             workers := s.workers.set i (WPC.processing x),
             popped := s.popped ++ [x],
             doneCount := s.doneCount }
  | some (WPC.processing _) =>
    some { q := { items := s.q.items, unfinished := s.q.unfinished - 1 },
           workers := s.workers.set i WPC.atLoop,
           popped := s.popped,
           doneCount := s.doneCount + 1 }
  | _ => none

/-- The initial state main() builds: every device put on the queue (the
unfinished counter equals the number of puts) and
`min(NUM_THREADS, len(devices))` workers started at the loop head. -/
def poolInit (devices : List String) (configured : Nat) : PoolSys :=
  { q := { items := devices, unfinished := devices.length },
    workers := List.replicate (min configured devices.length) WPC.atLoop,
    popped := [],
    doneCount := 0 }

/-- Reachability under any interleaving of worker steps. -/
inductive PoolReaches : PoolSys → PoolSys → Prop where
  | refl (s : PoolSys) : PoolReaches s s
  | step (s t u : PoolSys) (i : Nat) :
      PoolReaches s t → poolStep t i = some u → PoolReaches s u

/-- Run a concrete schedule of worker indices, failing if a scheduled
worker has no enabled step. -/
def runSched (s : PoolSys) : List Nat → Option PoolSys
  | [] => some s
  | i :: rest =>
    match poolStep s i with
    | none => none
    | some t => runSched t rest

/-- queue.join() returns exactly when the unfinished-task counter is
zero. -/
def queueJoinReturns (s : PoolSys) : Prop :=
  s.q.unfinished = 0

/-! ## Lock-guarded CSV writer

ThreadSafeDictWriter wraps each writeheader/writerow call in
`with self.lock`, so each call compiles to acquire, one put per cell of
the rendered row, release.  The lock semantics only constrains acquire
(it blocks while the lock is held); that cells are never interleaved is
proved from the block structure of the compiled calls, not assumed. -/

/-- Primitive operations a thread performs against the shared writer:
acquire the lock, emit one cell of output, release the lock. -/
inductive WriterOp where
  | acq
  | put (cell : String)
  | rel
deriving DecidableEq, Repr

/-- The operation sequence of one writeheader/writerow call: the whole
write happens between one acquire and one release. -/
def callOps (r : List String) : List WriterOp :=
  WriterOp.acq :: (r.map WriterOp.put ++ [WriterOp.rel])

/-- The operation sequence of a thread that performs a given sequence
of write calls. -/
def threadOps (rs : List (List String)) : List WriterOp :=
  rs.flatMap callOps

/-- State of the sink system: each thread's remaining operations, the
lock holder, and the emitted cells tagged with their writing thread. -/
structure SinkSys where
  progs : List (List WriterOp)
  holder : Option Nat
  outp : List (Nat × String)
deriving DecidableEq, Repr

/-- One atomic step of thread i against the sink: acquire succeeds only
when the lock is free; put and rel are unconstrained primitives (mutual
exclusion of the emitted cells is a theorem about the compiled call
structure, not baked into the semantics). -/
def sinkStep (s : SinkSys) (i : Nat) : Option SinkSys :=
  match s.progs.get? i with
  | some (WriterOp.acq :: rest) =>
    match s.holder with
    | none => some { progs := s.progs.set i rest, holder := some i, outp := s.outp }
    | some _ => none
  | some (WriterOp.put c :: rest) =>
    some { progs := s.progs.set i rest, holder := s.holder, outp := s.outp ++ [(i, c)] }
  | some (WriterOp.rel :: rest) =>
    some { progs := s.progs.set i rest, holder := none, outp := s.outp }
  | _ => none

/-- Initial sink state for a list of per-thread write-call sequences:
lock free, nothing written. -/
def sinkInit (rss : List (List (List String))) : SinkSys :=
  { progs := rss.map threadOps, holder := none, outp := [] }

/-- Reachability under any interleaving of sink steps. -/
inductive SinkReaches : SinkSys → SinkSys → Prop where
  | refl (s : SinkSys) : SinkReaches s s
  | step (s t u : SinkSys) (i : Nat) :
      SinkReaches s t → sinkStep t i = some u → SinkReaches s u

/-- The flat cell stream of a sequence of completed tagged rows. -/
def outOf (blocks : List (Nat × List String)) : List (Nat × String) :=
  blocks.flatMap (fun b => b.2.map (fun c => (b.1, c)))

/-- The rows a given thread has completed, in order, within a block
sequence. -/
def doneRows (blocks : List (Nat × List String)) (i : Nat) : List (List String) :=
  (blocks.filter (fun b => b.1 == i)).map (fun b => b.2)

/-! ## Basic lemmas about event traces -/

lemma rowsOf_append (a b : List Ev) : rowsOf (a ++ b) = rowsOf a ++ rowsOf b := by
  simp [rowsOf]

lemma rowsOf_nil : rowsOf [] = [] := rfl

lemma rowsOf_opened_cons (l : List Ev) : rowsOf (Ev.opened :: l) = rowsOf l := rfl

lemma rowsOf_sent_cons (c : String) (l : List Ev) :
    rowsOf (Ev.sent c :: l) = rowsOf l := rfl

lemma rowsOf_wrote_cons (r : Row) (l : List Ev) :
    rowsOf (Ev.wrote r :: l) = r :: rowsOf l := rfl

lemma rowsOf_closed : rowsOf [Ev.closed] = [] := rfl

lemma rowsOf_map_wrote {α : Type} (f : α → Row) (l : List α) :
    rowsOf (l.map (fun x => Ev.wrote (f x))) = l.map f := by
  induction l with
  | nil => rfl
  | cons x xs ih => simpa [rowsOf_wrote_cons] using congrArg (f x :: ·) ih

lemma rowsOf_cdpFetch (conn : Conn) (commands : CommandSet) :
    rowsOf (cdpFetch conn commands).1 = [] := by
  cases h : commands.cdp <;> simp [cdpFetch, h, rowsOf]

/-! ## Shape of the session body under fixed outcomes of the external
calls -/

lemma sessionBody_unsupported {conn : Conn} (ip : String)
    (hmap : COMMAND_MAP conn.device_type = none) :
    sessionBody ip conn =
      ([Ev.wrote (mkFailRow ip ("Unsupported OS: " ++ conn.device_type))], none) := by
  simp only [sessionBody, hmap]

lemma sessionBody_ok {conn : Conn} {commands : CommandSet}
    {version_data interface_data cdp_data : List Record} {cevts : List Ev}
    (ip : String)
    (hmap : COMMAND_MAP conn.device_type = some commands)
    (hv : conn.send_command commands.version = Except.ok version_data)
    (hi : conn.send_command commands.interfaces = Except.ok interface_data)
    (hc : cdpFetch conn commands = (cevts, Except.ok cdp_data)) :
    sessionBody ip conn =
      (Ev.sent commands.version :: Ev.sent commands.interfaces :: cevts ++
        (correlate ip conn version_data interface_data cdp_data).1,
       (correlate ip conn version_data interface_data cdp_data).2) := by
  simp only [sessionBody, hmap, hv, hi, hc]
  simp

lemma correlate_noVersion (ip : String) (conn : Conn)
    (interface_data cdp_data : List Record) :
    correlate ip conn [] interface_data cdp_data =
      ([Ev.wrote (mkFailRow ip "Failed to parse version")], none) := rfl

lemma correlate_lookup_error {cdp_data : List Record} {e : PyExc}
    (ip : String) (conn : Conn) (device_info : Record)
    (vrest interface_data : List Record)
    (hb : buildCdpLookup cdp_data = Except.error e) :
    correlate ip conn (device_info :: vrest) interface_data cdp_data = ([], some e) := by
  simp only [correlate, hb]

lemma correlate_summary {cdp_data : List Record}
    {cdp_lookup : String → Option CdpInfo}
    (ip : String) (conn : Conn) (device_info : Record) (vrest : List Record)
    (hb : buildCdpLookup cdp_data = Except.ok cdp_lookup) :
    correlate ip conn (device_info :: vrest) [] cdp_data =
      ([Ev.wrote (summaryRow ip
          (device_info.getD "hostname" (promptHostname conn.find_prompt)) device_info)],
       none) := by
  simp only [correlate, hb]

lemma correlate_ifaces {cdp_data : List Record}
    {cdp_lookup : String → Option CdpInfo}
    (ip : String) (conn : Conn) (device_info : Record)
    (vrest : List Record) (iface0 : Record) (ifrest : List Record)
    (hb : buildCdpLookup cdp_data = Except.ok cdp_lookup) :
    correlate ip conn (device_info :: vrest) (iface0 :: ifrest) cdp_data =
      ((iface0 :: ifrest).map (fun iface =>
          Ev.wrote (ifaceRow ip
            (device_info.getD "hostname" (promptHostname conn.find_prompt))
            device_info cdp_lookup iface)),
       none) := by
  simp only [correlate, hb]

lemma correlate_error_no_rows {ip : String} {conn : Conn}
    {version_data interface_data cdp_data : List Record} {e : PyExc}
    (h : (correlate ip conn version_data interface_data cdp_data).2 = some e) :
    (correlate ip conn version_data interface_data cdp_data).1 = [] := by
  cases version_data with
  | nil => simp [correlate] at h
  | cons device_info vrest =>
    cases hb : buildCdpLookup cdp_data with
    | error e2 => simp only [correlate, hb]
    | ok cdp_lookup =>
      cases interface_data with
      | nil => simp [correlate, hb] at h
      | cons f fs => simp [correlate, hb] at h

lemma sessionBody_error_no_rows {ip : String} {conn : Conn} {evts : List Ev}
    {e : PyExc} (h : sessionBody ip conn = (evts, some e)) : rowsOf evts = [] := by
  cases hm : COMMAND_MAP conn.device_type with
  | none =>
    rw [sessionBody_unsupported ip hm] at h
    simp at h
  | some commands =>
    cases hv : conn.send_command commands.version with
    | error e1 =>
      simp only [sessionBody, hm, hv] at h
      obtain ⟨h1, h2⟩ := Prod.mk.injEq .. ▸ h
      subst h1
      rfl
    | ok version_data =>
      cases hi : conn.send_command commands.interfaces with
      | error e2 =>
        simp only [sessionBody, hm, hv, hi] at h
        obtain ⟨h1, h2⟩ := Prod.mk.injEq .. ▸ h
        subst h1
        rfl
      | ok interface_data =>
        cases hc : (cdpFetch conn commands) with
        | mk cevts cres =>
          cases cres with
          | error e3 =>
            simp only [sessionBody, hm, hv, hi, hc] at h
            obtain ⟨h1, h2⟩ := Prod.mk.injEq .. ▸ h
            subst h1
            have hce : rowsOf cevts = [] := by
              have := rowsOf_cdpFetch conn commands
              rw [hc] at this
              simpa using this
            simp [rowsOf_sent_cons, rowsOf_append, hce]
          | ok cdp_data =>
            rw [sessionBody_ok ip hm hv hi hc] at h
            obtain ⟨h1, h2⟩ := Prod.mk.injEq .. ▸ h
            subst h1
            have hcor := correlate_error_no_rows h2
            have hce : rowsOf cevts = [] := by
              have := rowsOf_cdpFetch conn commands
              rw [hc] at this
              simpa using this
            simp [rowsOf_sent_cons, rowsOf_append, hce, hcor]

/-! ## Shape of one device's rows -/

lemma deviceRows_conn_error {inp : DeviceInput} {e : PyExc} (ip : String)
    (hconn : inp.connect = Except.error e) :
    deviceRows ip inp = [excRow ip e] := by
  simp [deviceRows, deviceTask, hconn, rowsOf]

lemma deviceRows_body_exc {inp : DeviceInput} {conn : Conn} {evts : List Ev}
    {e : PyExc} (ip : String)
    (hconn : inp.connect = Except.ok conn)
    (hbody : sessionBody ip conn = (evts, some e)) :
    deviceRows ip inp = [excRow ip e] := by
  have hrows := sessionBody_error_no_rows hbody
  simp only [deviceRows, deviceTask, hconn, hbody]
  simp only [rowsOf] at hrows
  simp [rowsOf, hrows]

lemma deviceRows_body_ok {inp : DeviceInput} {conn : Conn} {evts : List Ev}
    (ip : String)
    (hconn : inp.connect = Except.ok conn)
    (hbody : sessionBody ip conn = (evts, none)) :
    deviceRows ip inp = rowsOf evts := by
  simp only [deviceRows, deviceTask, hconn, hbody]
  simp [rowsOf]

lemma rowsOf_cevts {conn : Conn} {commands : CommandSet} {cevts : List Ev}
    {res : Except PyExc (List Record)}
    (hc : cdpFetch conn commands = (cevts, res)) : rowsOf cevts = [] := by
  have h := rowsOf_cdpFetch conn commands
  rw [hc] at h
  simpa using h

/-! ## Concrete sample inputs -/

/-- A parsed version record of a healthy IOS device. -/
def demoVersionRec : Record :=
  ⟨[("hostname", "SW1"), ("hardware", "C9300"), ("version", "17.3")]⟩

/-- A parsed interface record. -/
def demoIfaceRec : Record :=
  ⟨[("intf", "Gi1/0/1"), ("ipaddr", "10.0.0.1"), ("status", "up"), ("proto", "up")]⟩

/-- A parsed CDP neighbor record whose local port matches the sample
interface. -/
def demoCdpRec : Record :=
  ⟨[("local_port", "Gi1/0/1"), ("destination_host", "SW2"),
    ("management_ip", "10.0.0.2"), ("platform", "C9200"),
    ("remote_port", "Gi1/0/24")]⟩

/-- A healthy IOS session returning the three sample records. -/
def demoConn : Conn :=
  { device_type := "cisco_ios", find_prompt := "SW1#",
    send_command := fun c =>
      if c = "show version" then Except.ok [demoVersionRec]
      else if c = "show ip interface brief" then Except.ok [demoIfaceRec]
      else Except.ok [demoCdpRec] }

/-- A device whose connection succeeds with the healthy session. -/
def demoInput : DeviceInput := ⟨Except.ok demoConn⟩

/-- A session whose every command parses to nothing. -/
def demoConnNoVersion : Conn :=
  { device_type := "cisco_ios", find_prompt := "SW1#",
    send_command := fun _ => Except.ok [] }

/-- A device whose connection succeeds but yields no parsed records. -/
def demoInputNoVersion : DeviceInput := ⟨Except.ok demoConnNoVersion⟩

/-- A session whose detected OS family is not in the command map. -/
def demoConnLinux : Conn :=
  { device_type := "linux", find_prompt := "$ ",
    send_command := fun _ => Except.ok [] }

/-- A device detected as an unsupported OS family. -/
def demoInputLinux : DeviceInput := ⟨Except.ok demoConnLinux⟩

/-- A device whose connection raises an authentication failure. -/
def demoInputAuthFail : DeviceInput := ⟨Except.error PyExc.auth⟩

/-- The command set COMMAND_MAP assigns to cisco_ios. -/
def iosCommands : CommandSet :=
  ⟨"show version", "show ip interface brief", some "show cdp neighbors detail"⟩

/-! ## Claim C5 -/

/-- C5: for every device whose version command yields no parseable
version record, exactly one failure row with the version-parse-failure
status is emitted and correlation stops: no summary row, no interface
rows, and no neighbor processing, whatever the interface and neighbor
commands returned. -/
theorem version_parse_failure_single_row
    (ip : String) (inp : DeviceInput) (conn : Conn) (commands : CommandSet)
    (interface_data cdp_data : List Record) (cevts : List Ev)
    (hconn : inp.connect = Except.ok conn)
    (hmap : COMMAND_MAP conn.device_type = some commands)
    (hv : conn.send_command commands.version = Except.ok [])
    (hi : conn.send_command commands.interfaces = Except.ok interface_data)
    (hc : cdpFetch conn commands = (cevts, Except.ok cdp_data)) :
    deviceRows ip inp = [mkFailRow ip "Failed to parse version"] := by
  have hbody := sessionBody_ok ip hmap hv hi hc
  rw [correlate_noVersion] at hbody
  have hrows := deviceRows_body_ok ip hconn hbody
  rw [hrows]
  have hce := rowsOf_cevts hc
  simp only [rowsOf] at hce ⊢
  simp [hce]

/-- Witness for C5: a concrete device whose commands all parse to
nothing gets exactly the version-parse failure row. -/
theorem version_parse_failure_single_row_witness :
    deviceRows "10.0.0.9" demoInputNoVersion =
      [mkFailRow "10.0.0.9" "Failed to parse version"] :=
  version_parse_failure_single_row "10.0.0.9" demoInputNoVersion demoConnNoVersion
    iosCommands [] [] [Ev.sent "show cdp neighbors detail"] rfl rfl rfl rfl rfl

/-! ## Claim C7 -/

/-- C7: a device whose detected OS family has no command-map entry gets
exactly one unsupported-OS failure row naming the family, no inventory
command is sent, and the session is still closed before the task
returns. -/
theorem unsupported_os_single_row_no_commands
    (ip : String) (inp : DeviceInput) (conn : Conn)
    (hconn : inp.connect = Except.ok conn)
    (hmap : COMMAND_MAP conn.device_type = none) :
    deviceTask ip inp =
      [Ev.opened, Ev.wrote (mkFailRow ip ("Unsupported OS: " ++ conn.device_type)),
       Ev.closed] ∧
    deviceRows ip inp = [mkFailRow ip ("Unsupported OS: " ++ conn.device_type)] ∧
    (∀ c, Ev.sent c ∉ deviceTask ip inp) ∧
    Ev.closed ∈ deviceTask ip inp := by
  have htask : deviceTask ip inp =
      [Ev.opened, Ev.wrote (mkFailRow ip ("Unsupported OS: " ++ conn.device_type)),
       Ev.closed] := by
    simp [deviceTask, hconn, sessionBody_unsupported ip hmap]
  refine ⟨htask, ?_, ?_, ?_⟩
  · rw [deviceRows, htask]
    rfl
  · intro c
    rw [htask]
    simp
  · rw [htask]
    simp

/-- Witness for C7: a device detected as linux yields only the
unsupported-OS row, with no command sent and the session closed. -/
theorem unsupported_os_single_row_no_commands_witness :
    deviceTask "10.0.0.7" demoInputLinux =
      [Ev.opened, Ev.wrote (mkFailRow "10.0.0.7" "Unsupported OS: linux"),
       Ev.closed] ∧
    deviceRows "10.0.0.7" demoInputLinux =
      [mkFailRow "10.0.0.7" "Unsupported OS: linux"] ∧
    (∀ c, Ev.sent c ∉ deviceTask "10.0.0.7" demoInputLinux) ∧
    Ev.closed ∈ deviceTask "10.0.0.7" demoInputLinux :=
  unsupported_os_single_row_no_commands "10.0.0.7" demoInputLinux demoConnLinux
    rfl rfl

/-! ## Claim C10 -/

lemma renderCell_present {r : Row} {k : String} {v : Option String}
    (h : rowGet r k = some v) : renderCell r k = v.getD "" := by
  unfold renderCell
  rw [h]
  cases v <;> rfl

/-- C10: the unset-column placeholder differs between row kinds.  In a
failure row every column other than ip_address and status is absent and
renders as the restval "N/A"; in an OK interface row with no neighbor
match the three neighbor columns are present with value None and render
as empty strings. -/
theorem restval_vs_none_rendering :
    (∀ ip s, renderRow (mkFailRow ip s) =
      ["N/A", ip, "N/A", "N/A", s, "N/A", "N/A", "N/A", "N/A", "N/A", "N/A", "N/A"]) ∧
    (∀ ip hostname device_info cdp_lookup iface,
      neighborLookupHit cdp_lookup iface = none →
      renderRow (ifaceRow ip hostname device_info cdp_lookup iface) =
        [hostname, ip, (device_info.get "hardware").getD "",
         (device_info.get "version").getD "", "OK",
         (iface.get "intf").getD "", (iface.get "ipaddr").getD "",
         (iface.get "status").getD "", (iface.get "proto").getD "",
         "", "", ""]) := by
  constructor
  · intro ip s
    rfl
  · intro ip hostname device_info cdp_lookup iface h
    have r1 : rowGet (ifaceRow ip hostname device_info cdp_lookup iface) "hostname"
        = some (some hostname) := by rfl
    have r2 : rowGet (ifaceRow ip hostname device_info cdp_lookup iface) "ip_address"
        = some (some ip) := by rfl
    have r3 : rowGet (ifaceRow ip hostname device_info cdp_lookup iface) "model"
        = some (device_info.get "hardware") := by rfl
    have r4 : rowGet (ifaceRow ip hostname device_info cdp_lookup iface) "version"
        = some (device_info.get "version") := by rfl
    have r5 : rowGet (ifaceRow ip hostname device_info cdp_lookup iface) "status"
        = some (some "OK") := by rfl
    have r6 : rowGet (ifaceRow ip hostname device_info cdp_lookup iface) "interface"
        = some (iface.get "intf") := by rfl
    have r7 : rowGet (ifaceRow ip hostname device_info cdp_lookup iface) "interface_ip"
        = some (iface.get "ipaddr") := by rfl
    have r8 : rowGet (ifaceRow ip hostname device_info cdp_lookup iface) "interface_status"
        = some (iface.get "status") := by rfl
    have r9 : rowGet (ifaceRow ip hostname device_info cdp_lookup iface) "protocol_status"
        = some (iface.get "proto") := by rfl
    have r10 : rowGet (ifaceRow ip hostname device_info cdp_lookup iface) "neighbor_device"
        = some ((neighborLookupHit cdp_lookup iface).map CdpInfo.neighbor) := by rfl
    have r11 : rowGet (ifaceRow ip hostname device_info cdp_lookup iface) "neighbor_platform"
        = some ((neighborLookupHit cdp_lookup iface).map CdpInfo.neighbor_platform) := by rfl
    have r12 : rowGet (ifaceRow ip hostname device_info cdp_lookup iface) "neighbor_interface"
        = some ((neighborLookupHit cdp_lookup iface).map CdpInfo.neighbor_port) := by rfl
    have e1 := renderCell_present r1
    have e2 := renderCell_present r2
    have e3 := renderCell_present r3
    have e4 := renderCell_present r4
    have e5 := renderCell_present r5
    have e6 := renderCell_present r6
    have e7 := renderCell_present r7
    have e8 := renderCell_present r8
    have e9 := renderCell_present r9
    have e10 := renderCell_present r10
    have e11 := renderCell_present r11
    have e12 := renderCell_present r12
    rw [h] at e10 e11 e12
    simp only [Option.map_none', Option.getD_none] at e10 e11 e12
    simp only [Option.getD_some] at e1 e2 e5
    show [renderCell (ifaceRow ip hostname device_info cdp_lookup iface) "hostname",
          renderCell (ifaceRow ip hostname device_info cdp_lookup iface) "ip_address",
          renderCell (ifaceRow ip hostname device_info cdp_lookup iface) "model",
          renderCell (ifaceRow ip hostname device_info cdp_lookup iface) "version",
          renderCell (ifaceRow ip hostname device_info cdp_lookup iface) "status",
          renderCell (ifaceRow ip hostname device_info cdp_lookup iface) "interface",
          renderCell (ifaceRow ip hostname device_info cdp_lookup iface) "interface_ip",
          renderCell (ifaceRow ip hostname device_info cdp_lookup iface) "interface_status",
          renderCell (ifaceRow ip hostname device_info cdp_lookup iface) "protocol_status",
          renderCell (ifaceRow ip hostname device_info cdp_lookup iface) "neighbor_device",
          renderCell (ifaceRow ip hostname device_info cdp_lookup iface) "neighbor_platform",
          renderCell (ifaceRow ip hostname device_info cdp_lookup iface) "neighbor_interface"]
        = _
    rw [e1, e2, e3, e4, e5, e6, e7, e8, e9, e10, e11, e12]

/-- Witness for C10: the authentication failure row renders with N/A in
every unset column, while the no-neighbor OK row of the sample device
renders its neighbor columns as empty strings. -/
theorem restval_vs_none_rendering_witness :
    renderRow (mkFailRow "10.0.0.2" "Authentication Failed") =
      ["N/A", "10.0.0.2", "N/A", "N/A", "Authentication Failed", "N/A", "N/A",
       "N/A", "N/A", "N/A", "N/A", "N/A"] ∧
    renderRow (ifaceRow "10.0.0.1" "SW1" demoVersionRec (fun _ => none) demoIfaceRec) =
      ["SW1", "10.0.0.1", "C9300", "17.3", "OK", "Gi1/0/1", "10.0.0.1", "up", "up",
       "", "", ""] :=
  ⟨restval_vs_none_rendering.1 "10.0.0.2" "Authentication Failed",
   restval_vs_none_rendering.2 "10.0.0.1" "SW1" demoVersionRec (fun _ => none)
     demoIfaceRec rfl⟩

/-! ## Success-path helpers -/

lemma sessionBody_ok2 {conn : Conn} {commands : CommandSet}
    {version_data interface_data cdp_data : List Record} {cevts wevts : List Ev}
    {wexc : Option PyExc}
    (ip : String)
    (hmap : COMMAND_MAP conn.device_type = some commands)
    (hv : conn.send_command commands.version = Except.ok version_data)
    (hi : conn.send_command commands.interfaces = Except.ok interface_data)
    (hc : cdpFetch conn commands = (cevts, Except.ok cdp_data))
    (hcor : correlate ip conn version_data interface_data cdp_data = (wevts, wexc)) :
    sessionBody ip conn =
      (Ev.sent commands.version :: Ev.sent commands.interfaces :: cevts ++ wevts,
       wexc) := by
  rw [sessionBody_ok ip hmap hv hi hc, hcor]

lemma deviceRows_of_correlate {inp : DeviceInput} {conn : Conn}
    {commands : CommandSet} {version_data interface_data cdp_data : List Record}
    {cevts wevts : List Ev}
    (ip : String)
    (hconn : inp.connect = Except.ok conn)
    (hmap : COMMAND_MAP conn.device_type = some commands)
    (hv : conn.send_command commands.version = Except.ok version_data)
    (hi : conn.send_command commands.interfaces = Except.ok interface_data)
    (hc : cdpFetch conn commands = (cevts, Except.ok cdp_data))
    (hcor : correlate ip conn version_data interface_data cdp_data = (wevts, none)) :
    deviceRows ip inp = rowsOf wevts := by
  have hbody := sessionBody_ok2 ip hmap hv hi hc hcor
  rw [deviceRows_body_ok ip hconn hbody]
  rw [rowsOf_append, rowsOf_sent_cons, rowsOf_sent_cons, rowsOf_cevts hc]
  rfl

lemma deviceRows_ifaces {inp : DeviceInput} {conn : Conn}
    {commands : CommandSet} {cdp_data : List Record} {cevts : List Ev}
    {cdp_lookup : String → Option CdpInfo}
    (ip : String) (device_info : Record)
    (vrest : List Record) (iface0 : Record) (ifrest : List Record)
    (hconn : inp.connect = Except.ok conn)
    (hmap : COMMAND_MAP conn.device_type = some commands)
    (hv : conn.send_command commands.version = Except.ok (device_info :: vrest))
    (hi : conn.send_command commands.interfaces = Except.ok (iface0 :: ifrest))
    (hc : cdpFetch conn commands = (cevts, Except.ok cdp_data))
    (hb : buildCdpLookup cdp_data = Except.ok cdp_lookup) :
    deviceRows ip inp =
      (iface0 :: ifrest).map (ifaceRow ip
        (device_info.getD "hostname" (promptHostname conn.find_prompt))
        device_info cdp_lookup) := by
  have hcor := correlate_ifaces ip conn device_info vrest iface0 ifrest hb
  rw [deviceRows_of_correlate ip hconn hmap hv hi hc hcor]
  exact rowsOf_map_wrote _ _

/-! ## Claim C3 -/

/-- C3: a device that reaches correlation with a parsed version record
gets exactly one summary row when it has no interface records, and
exactly one row per interface record otherwise, each row carrying the
shared hostname, model and version of the single version record. -/
theorem correlator_summary_and_per_interface_rows
    (ip hostname : String) (inp : DeviceInput) (conn : Conn)
    (commands : CommandSet) (device_info : Record)
    (vrest interface_data cdp_data : List Record) (cevts : List Ev)
    (cdp_lookup : String → Option CdpInfo)
    (hconn : inp.connect = Except.ok conn)
    (hmap : COMMAND_MAP conn.device_type = some commands)
    (hv : conn.send_command commands.version = Except.ok (device_info :: vrest))
    (hi : conn.send_command commands.interfaces = Except.ok interface_data)
    (hc : cdpFetch conn commands = (cevts, Except.ok cdp_data))
    (hb : buildCdpLookup cdp_data = Except.ok cdp_lookup)
    (hhn : hostname = device_info.getD "hostname" (promptHostname conn.find_prompt)) :
    (interface_data = [] →
      deviceRows ip inp = [summaryRow ip hostname device_info]) ∧
    (interface_data ≠ [] →
      deviceRows ip inp =
        interface_data.map (ifaceRow ip hostname device_info cdp_lookup) ∧
      (deviceRows ip inp).length = interface_data.length ∧
      ∀ r ∈ deviceRows ip inp,
        rowGet r "hostname" = some (some hostname) ∧
        rowGet r "model" = some (device_info.get "hardware") ∧
        rowGet r "version" = some (device_info.get "version") ∧
        rowGet r "status" = some (some "OK")) := by
  subst hhn
  constructor
  · intro hif
    subst hif
    have hcor := correlate_summary ip conn device_info vrest hb
    rw [deviceRows_of_correlate ip hconn hmap hv hi hc hcor]
    rfl
  · intro hif
    obtain ⟨iface0, ifrest, rfl⟩ := List.exists_cons_of_ne_nil hif
    have hmain := deviceRows_ifaces ip device_info vrest iface0 ifrest
      hconn hmap hv hi hc hb
    refine ⟨hmain, by rw [hmain]; simp, ?_⟩
    intro r hr
    rw [hmain] at hr
    obtain ⟨iface, hmem, rfl⟩ := List.mem_map.mp hr
    exact ⟨by rfl, by rfl, by rfl, by rfl⟩

/-- The CDP lookup the sample neighbor record produces. -/
def demoLookup : String → Option CdpInfo :=
  fun q => if q = "Gi1/0/1"
           then some ⟨"SW2", "10.0.0.2", "C9200", "Gi1/0/24"⟩
           else none

/-- Witness for C3: the sample device with one interface record gets
exactly one interface row. -/
theorem correlator_summary_and_per_interface_rows_witness :
    deviceRows "10.0.0.1" demoInput =
      [ifaceRow "10.0.0.1" "SW1" demoVersionRec demoLookup demoIfaceRec] :=
  ((correlator_summary_and_per_interface_rows "10.0.0.1" "SW1" demoInput demoConn
      iosCommands demoVersionRec [] [demoIfaceRec] [demoCdpRec]
      [Ev.sent "show cdp neighbors detail"] demoLookup
      rfl rfl rfl rfl rfl rfl rfl).2 (by simp)).1

/-! ## Claim C6 -/

/-- C6: the device session task never raises past its boundary: an
authentication failure, a timeout, and every other exception — whether
raised by the connect call or anywhere inside the with-block — each
yield exactly one failure row with the corresponding status, and
nothing else. -/
theorem task_error_isolation (ip : String) (inp : DeviceInput) :
    (inp.connect = Except.error PyExc.auth →
      deviceRows ip inp = [mkFailRow ip "Authentication Failed"]) ∧
    (inp.connect = Except.error PyExc.timeout →
      deviceRows ip inp = [mkFailRow ip "Connection Timeout"]) ∧
    (∀ m, inp.connect = Except.error (PyExc.other m) →
      deviceRows ip inp = [mkFailRow ip ("Error: " ++ m)]) ∧
    (∀ conn evts e, inp.connect = Except.ok conn →
      sessionBody ip conn = (evts, some e) →
      deviceRows ip inp = [excRow ip e]) := by
  refine ⟨?_, ?_, ?_, ?_⟩
  · intro h
    rw [deviceRows_conn_error ip h]
    rfl
  · intro h
    rw [deviceRows_conn_error ip h]
    rfl
  · intro m h
    rw [deviceRows_conn_error ip h]
    rfl
  · intro conn evts e hconn hbody
    exact deviceRows_body_exc ip hconn hbody

/-- Witness for C6: a device whose connect raises an authentication
failure yields exactly the authentication failure row. -/
theorem task_error_isolation_witness :
    deviceRows "10.0.0.2" demoInputAuthFail =
      [mkFailRow "10.0.0.2" "Authentication Failed"] :=
  (task_error_isolation "10.0.0.2" demoInputAuthFail).1 rfl

/-! ## Claim C4: neighbor correlation and last-write-wins -/

/-- Keep the first option when it is set, else the default. -/
def orDefault {α : Type} : Option α → Option α → Option α
  | some v, _ => some v
  | none, d => d

/-- The CDP info one neighbor record contributes, when all its fields
are present. -/
def cdpInfoOf (item : Record) : Option CdpInfo :=
  match item.get "destination_host", item.get "management_ip",
        item.get "platform", item.get "remote_port" with
  | some n, some nip, some plat, some port => some ⟨n, nip, plat, port⟩
  | _, _, _, _ => none

/-- Specification of a last-write-wins dictionary build: the binding of
a key is the one contributed by the last record whose local port equals
the key. -/
def lastWins : List Record → String → Option CdpInfo
  | [], _ => none
  | item :: rest, k =>
    orDefault (lastWins rest k)
      (if item.get "local_port" = some k then cdpInfoOf item else none)

lemma getItem_ok {r : Record} {k v : String} :
    r.getItem k = Except.ok v ↔ r.get k = some v := by
  unfold Record.getItem
  cases h : r.get k <;> simp

lemma cdpInsert_ok {acc : String → Option CdpInfo} {item : Record}
    {acc2 : String → Option CdpInfo}
    (h : cdpInsert acc item = Except.ok acc2) :
    ∃ k0 info0, item.get "local_port" = some k0 ∧ cdpInfoOf item = some info0 ∧
      ∀ q, acc2 q = if q = k0 then some info0 else acc q := by
  unfold cdpInsert at h
  cases h1 : item.getItem "local_port" with
  | error e => rw [h1] at h; simp at h
  | ok k0 =>
    rw [h1] at h
    cases h2 : item.getItem "destination_host" with
    | error e => rw [h2] at h; simp at h
    | ok n =>
      rw [h2] at h
      cases h3 : item.getItem "management_ip" with
      | error e => rw [h3] at h; simp at h
      | ok nip =>
        rw [h3] at h
        cases h4 : item.getItem "platform" with
        | error e => rw [h4] at h; simp at h
        | ok plat =>
          rw [h4] at h
          cases h5 : item.getItem "remote_port" with
          | error e => rw [h5] at h; simp at h
          | ok port =>
            rw [h5] at h
            have hacc2 : acc2 =
                fun q => if q = k0 then some ⟨n, nip, plat, port⟩ else acc q := by
              cases h
              rfl
            refine ⟨k0, ⟨n, nip, plat, port⟩, getItem_ok.mp h1, ?_, ?_⟩
            · simp only [cdpInfoOf, getItem_ok.mp h2, getItem_ok.mp h3,
                getItem_ok.mp h4, getItem_ok.mp h5]
            · intro q
              rw [hacc2]

lemma buildFrom_lastWins (items : List Record) :
    ∀ acc f, buildCdpLookupFrom acc items = Except.ok f →
      ∀ k, f k = orDefault (lastWins items k) (acc k) := by
  induction items with
  | nil =>
    intro acc f h k
    simp only [buildCdpLookupFrom] at h
    cases h
    rfl
  | cons item rest ih =>
    intro acc f h k
    simp only [buildCdpLookupFrom] at h
    cases hins : cdpInsert acc item with
    | error e => rw [hins] at h; simp at h
    | ok acc2 =>
      rw [hins] at h
      obtain ⟨k0, info0, hk0, hinfo, hacc2⟩ := cdpInsert_ok hins
      have hrec := ih acc2 f h k
      rw [hrec, hacc2 k]
      show orDefault (lastWins rest k) (if k = k0 then some info0 else acc k)
         = orDefault (lastWins (item :: rest) k) (acc k)
      cases hlw : lastWins rest k with
      | some v => simp [lastWins, hlw, orDefault]
      | none =>
        simp only [lastWins, hlw, orDefault, hk0, hinfo]
        by_cases hq : k = k0
        · subst hq
          simp [orDefault]
        · have hne : ¬ (some k0 = some k) := by
            intro hh
            exact hq (Option.some.inj hh).symm
          simp [hq, hne, orDefault]

lemma buildCdpLookup_lastWins {cdp_data : List Record}
    {cdp_lookup : String → Option CdpInfo}
    (hb : buildCdpLookup cdp_data = Except.ok cdp_lookup) :
    ∀ k, cdp_lookup k = lastWins cdp_data k := by
  intro k
  have h := buildFrom_lastWins cdp_data (fun _ => none) cdp_lookup hb k
  rw [h]
  cases lastWins cdp_data k <;> rfl

/-- C4: in every emitted interface row the three neighbor fields equal
the projection of the CDP-lookup hit for the row's interface name —
populated exactly when the name is a key of the lookup, left None (and
the row still emitted) otherwise — and the lookup itself is
last-write-wins over duplicate local ports. -/
theorem neighbor_fields_iff_lookup_match
    (ip hostname : String) (inp : DeviceInput) (conn : Conn)
    (commands : CommandSet) (device_info : Record)
    (vrest interface_data cdp_data : List Record) (cevts : List Ev)
    (cdp_lookup : String → Option CdpInfo)
    (hconn : inp.connect = Except.ok conn)
    (hmap : COMMAND_MAP conn.device_type = some commands)
    (hv : conn.send_command commands.version = Except.ok (device_info :: vrest))
    (hi : conn.send_command commands.interfaces = Except.ok interface_data)
    (hc : cdpFetch conn commands = (cevts, Except.ok cdp_data))
    (hb : buildCdpLookup cdp_data = Except.ok cdp_lookup)
    (hhn : hostname = device_info.getD "hostname" (promptHostname conn.find_prompt)) :
    (∀ iface ∈ interface_data,
      ifaceRow ip hostname device_info cdp_lookup iface ∈ deviceRows ip inp ∧
      rowGet (ifaceRow ip hostname device_info cdp_lookup iface) "neighbor_device"
        = some ((neighborLookupHit cdp_lookup iface).map CdpInfo.neighbor) ∧
      rowGet (ifaceRow ip hostname device_info cdp_lookup iface) "neighbor_platform"
        = some ((neighborLookupHit cdp_lookup iface).map CdpInfo.neighbor_platform) ∧
      rowGet (ifaceRow ip hostname device_info cdp_lookup iface) "neighbor_interface"
        = some ((neighborLookupHit cdp_lookup iface).map CdpInfo.neighbor_port) ∧
      (((neighborLookupHit cdp_lookup iface).map CdpInfo.neighbor).isSome ↔
        ∃ k, iface.get "intf" = some k ∧ (cdp_lookup k).isSome)) ∧
    (∀ k, cdp_lookup k = lastWins cdp_data k) := by
  subst hhn
  refine ⟨?_, buildCdpLookup_lastWins hb⟩
  intro iface hmem
  obtain ⟨iface0, ifrest, rfl⟩ :=
    List.exists_cons_of_ne_nil (List.ne_nil_of_mem hmem)
  have hmain := deviceRows_ifaces ip device_info vrest iface0 ifrest
    hconn hmap hv hi hc hb
  refine ⟨?_, by rfl, by rfl, by rfl, ?_⟩
  · rw [hmain]
    exact List.mem_map.mpr ⟨iface, hmem, rfl⟩
  · unfold neighborLookupHit
    cases hik : iface.get "intf" with
    | none => simp
    | some k =>
      cases hck : cdp_lookup k <;> simp [hik, hck]

/-- Witness for C4: in the sample device's single row the neighbor
fields are populated from the neighbor record matching the interface,
and the lookup equals last-write-wins on the sample data. -/
theorem neighbor_fields_iff_lookup_match_witness :
    (ifaceRow "10.0.0.1" "SW1" demoVersionRec demoLookup demoIfaceRec ∈
        deviceRows "10.0.0.1" demoInput ∧
      rowGet (ifaceRow "10.0.0.1" "SW1" demoVersionRec demoLookup demoIfaceRec)
        "neighbor_device" = some (some "SW2") ∧
      ((( neighborLookupHit demoLookup demoIfaceRec).map CdpInfo.neighbor).isSome ↔
        ∃ k, demoIfaceRec.get "intf" = some k ∧ (demoLookup k).isSome)) ∧
    demoLookup "Gi1/0/1" = lastWins [demoCdpRec] "Gi1/0/1" := by
  have h := neighbor_fields_iff_lookup_match "10.0.0.1" "SW1" demoInput demoConn
    iosCommands demoVersionRec [] [demoIfaceRec] [demoCdpRec]
    [Ev.sent "show cdp neighbors detail"] demoLookup
    rfl rfl rfl rfl rfl rfl rfl
  obtain ⟨hrow, hlw⟩ := h
  have hr := hrow demoIfaceRec (by simp)
  exact ⟨⟨hr.1, hr.2.1, hr.2.2.2.2⟩, hlw "Gi1/0/1"⟩

/-! ## Claim C1: exactly one outcome path per device -/

/-- The five failure statuses a device can receive. -/
def isFailStatus (s : String) : Prop :=
  s = "Authentication Failed" ∨ s = "Connection Timeout" ∨
  s = "Failed to parse version" ∨
  (∃ os, s = "Unsupported OS: " ++ os) ∨
  (∃ m, s = "Error: " ++ m)

lemma unsupported_ne_ok (os : String) : "Unsupported OS: " ++ os ≠ "OK" := by
  intro h
  have hl := congrArg String.length h
  rw [String.length_append] at hl
  have h1 : ("Unsupported OS: " : String).length = 16 := by decide
  have h2 : ("OK" : String).length = 2 := by decide
  omega

lemma error_prefix_ne_ok (m : String) : "Error: " ++ m ≠ "OK" := by
  intro h
  have hl := congrArg String.length h
  rw [String.length_append] at hl
  have h1 : ("Error: " : String).length = 7 := by decide
  have h2 : ("OK" : String).length = 2 := by decide
  omega

lemma excRow_outcome (ip : String) (e : PyExc) :
    ∃ s, isFailStatus s ∧ s ≠ "OK" ∧ excRow ip e = mkFailRow ip s := by
  cases e with
  | auth => exact ⟨"Authentication Failed", Or.inl rfl, by decide, rfl⟩
  | timeout => exact ⟨"Connection Timeout", Or.inr (Or.inl rfl), by decide, rfl⟩
  | other m =>
    exact ⟨"Error: " ++ m, Or.inr (Or.inr (Or.inr (Or.inr ⟨m, rfl⟩))),
      error_prefix_ne_ok m, rfl⟩

lemma sessionBody_none_rows {ip : String} {conn : Conn} {evts : List Ev}
    (h : sessionBody ip conn = (evts, none)) :
    (∃ s, isFailStatus s ∧ s ≠ "OK" ∧ rowsOf evts = [mkFailRow ip s]) ∨
    (rowsOf evts ≠ [] ∧ ∀ r ∈ rowsOf evts, rowGet r "status" = some (some "OK")) := by
  cases hm : COMMAND_MAP conn.device_type with
  | none =>
    rw [sessionBody_unsupported ip hm] at h
    obtain ⟨h1, h2⟩ := Prod.mk.injEq .. ▸ h
    subst h1
    left
    exact ⟨"Unsupported OS: " ++ conn.device_type,
      Or.inr (Or.inr (Or.inr (Or.inl ⟨conn.device_type, rfl⟩))),
      unsupported_ne_ok conn.device_type, rfl⟩
  | some commands =>
    cases hv : conn.send_command commands.version with
    | error e1 => simp [sessionBody, hm, hv] at h
    | ok version_data =>
      cases hi : conn.send_command commands.interfaces with
      | error e2 => simp [sessionBody, hm, hv, hi] at h
      | ok interface_data =>
        cases hc : cdpFetch conn commands with
        | mk cevts cres =>
          cases cres with
          | error e3 => simp [sessionBody, hm, hv, hi, hc] at h
          | ok cdp_data =>
            rw [sessionBody_ok ip hm hv hi hc] at h
            obtain ⟨h1, h2⟩ := Prod.mk.injEq .. ▸ h
            subst h1
            have hsents : rowsOf
                (Ev.sent commands.version :: Ev.sent commands.interfaces :: cevts ++
                  (correlate ip conn version_data interface_data cdp_data).1) =
                rowsOf (correlate ip conn version_data interface_data cdp_data).1 := by
              rw [rowsOf_append, rowsOf_sent_cons, rowsOf_sent_cons, rowsOf_cevts hc]
              rfl
            rw [hsents]
            cases version_data with
            | nil =>
              left
              refine ⟨"Failed to parse version",
                Or.inr (Or.inr (Or.inl rfl)), by decide, ?_⟩
              rw [correlate_noVersion]
              rfl
            | cons device_info vrest =>
              cases hb : buildCdpLookup cdp_data with
              | error e4 =>
                rw [correlate_lookup_error ip conn device_info vrest
                  interface_data hb] at h2
                simp at h2
              | ok cdp_lookup =>
                cases interface_data with
                | nil =>
                  right
                  rw [correlate_summary ip conn device_info vrest hb]
                  refine ⟨by simp [rowsOf], ?_⟩
                  intro r hr
                  have hone : rowsOf [Ev.wrote (summaryRow ip
                      (device_info.getD "hostname" (promptHostname conn.find_prompt))
                      device_info)] =
                    [summaryRow ip
                      (device_info.getD "hostname" (promptHostname conn.find_prompt))
                      device_info] := rfl
                  rw [hone] at hr
                  rw [List.mem_singleton.mp hr]
                  rfl
                | cons iface0 ifrest =>
                  right
                  have hrows : rowsOf (correlate ip conn (device_info :: vrest)
                      (iface0 :: ifrest) cdp_data).1 =
                      (iface0 :: ifrest).map (ifaceRow ip
                        (device_info.getD "hostname" (promptHostname conn.find_prompt))
                        device_info cdp_lookup) := by
                    rw [correlate_ifaces ip conn device_info vrest iface0 ifrest hb]
                    exact rowsOf_map_wrote _ _
                  rw [hrows]
                  refine ⟨by simp, ?_⟩
                  intro r hr
                  obtain ⟨iface, hmem2, rfl⟩ := List.mem_map.mp hr
                  rfl

/-- C1: every device that a worker pops produces at least one output
row, and its rows are either all status-OK rows or exactly one failure
row with one of the five failure statuses — never zero rows and never a
mix of success and failure rows. -/
theorem every_device_one_outcome (ip : String) (inp : DeviceInput) :
    deviceRows ip inp ≠ [] ∧
    ((∀ r ∈ deviceRows ip inp, rowGet r "status" = some (some "OK")) ∨
     (∃ s, isFailStatus s ∧ s ≠ "OK" ∧ deviceRows ip inp = [mkFailRow ip s])) := by
  cases hconn : inp.connect with
  | error e =>
    rw [deviceRows_conn_error ip hconn]
    obtain ⟨s, hfs, hne, hrow⟩ := excRow_outcome ip e
    rw [hrow]
    exact ⟨by simp, Or.inr ⟨s, hfs, hne, rfl⟩⟩
  | ok conn =>
    cases hbody : sessionBody ip conn with
    | mk evts exc =>
      cases exc with
      | some e =>
        rw [deviceRows_body_exc ip hconn hbody]
        obtain ⟨s, hfs, hne, hrow⟩ := excRow_outcome ip e
        rw [hrow]
        exact ⟨by simp, Or.inr ⟨s, hfs, hne, rfl⟩⟩
      | none =>
        rw [deviceRows_body_ok ip hconn hbody]
        rcases sessionBody_none_rows hbody with ⟨s, hfs, hne, hrows⟩ | ⟨hne, hok⟩
        · rw [hrows]
          exact ⟨by simp, Or.inr ⟨s, hfs, hne, rfl⟩⟩
        · exact ⟨hne, Or.inl hok⟩

/-! ## Claim C2: the drain loop can deadlock -/

lemma PoolReaches.trans_right {s t u : PoolSys}
    (h1 : PoolReaches s t) (h2 : PoolReaches t u) : PoolReaches s u := by
  induction h2 with
  | refl => exact h1
  | step a b i hab hbc ih => exact PoolReaches.step s a b i ih hbc

lemma runSched_reaches (sched : List Nat) :
    ∀ s t : PoolSys, runSched s sched = some t → PoolReaches s t := by
  induction sched with
  | nil =>
    intro s t h
    simp only [runSched] at h
    cases h
    exact PoolReaches.refl s
  | cons i rest ih =>
    intro s t h
    simp only [runSched] at h
    cases hstep : poolStep s i with
    | none => rw [hstep] at h; simp at h
    | some u =>
      rw [hstep] at h
      exact PoolReaches.trans_right
        (PoolReaches.step s s u i (PoolReaches.refl s) hstep) (ih u t h)

/-- The state the two-device, two-worker run reaches when worker 0
passes the `empty()` check but worker 1 then drains both items: worker 0
is blocked inside the parameterless `get()` on an empty queue while the
unfinished-task counter is already zero. -/
def deadlockState : PoolSys :=
  { q := { items := [], unfinished := 0 },
    workers := [WPC.atGet, WPC.finished],
    popped := ["10.0.0.1", "10.0.0.2"],
    doneCount := 2 }

/-- C2 fails on the code: with two devices and the source's
NUM_THREADS = 10 (so min gives two workers), the interleaving in which
worker 0 passes the `while not work_queue.empty()` test and worker 1
then pops and completes both devices reaches a state where the queue is
drained and queue.join() would return, yet worker 0 sits forever in the
blocking `get()` — no step is enabled for any worker, worker 0 never
exits its loop, and the orchestrator's join over the worker threads
never completes.  The pop in the source is `work_queue.get()`, which
blocks, not the non-blocking pop the claim describes. -/
theorem worker_loop_deadlock :
    PoolReaches (poolInit ["10.0.0.1", "10.0.0.2"] 10) deadlockState ∧
    queueJoinReturns deadlockState ∧
    deadlockState.workers.get? 0 = some WPC.atGet ∧
    deadlockState.workers.get? 0 ≠ some WPC.finished ∧
    (∀ i, poolStep deadlockState i = none) := by
  refine ⟨?_, ?_, by decide, by decide, ?_⟩
  · exact runSched_reaches [0, 1, 1, 1, 1, 1, 1, 1] _ _ (by decide)
  · show deadlockState.q.unfinished = 0
    rfl
  · intro i
    match i with
    | 0 => rfl
    | 1 => rfl
    | n + 2 => rfl

/-! ## Claim C8: the completion counter -/

lemma countP_set (p : WPC → Bool) (l : List WPC) :
    ∀ (i : Nat) (a b : WPC), l.get? i = some a →
      (l.set i b).countP p + (if p a then 1 else 0) =
        l.countP p + (if p b then 1 else 0) := by
  induction l with
  | nil => intro i a b h; simp at h
  | cons x xs ih =>
    intro i a b h
    cases i with
    | zero =>
      simp only [List.get?] at h
      cases h
      simp only [List.set, List.countP_cons]
      omega
    | succ n =>
      simp only [List.get?] at h
      simp only [List.set, List.countP_cons]
      have := ih n a b h
      omega

lemma procCount_set (l : List WPC) (i : Nat) (a b : WPC)
    (h : l.get? i = some a) :
    procCount (l.set i b) + (if isProcessing a then 1 else 0) =
      procCount l + (if isProcessing b then 1 else 0) :=
  countP_set isProcessing l i a b h

lemma procCount_set_eq {l : List WPC} {i : Nat} {a b : WPC}
    (h : l.get? i = some a) (ha : isProcessing a = isProcessing b) :
    procCount (l.set i b) = procCount l := by
  have h0 := procCount_set l i a b h
  rw [ha] at h0
  omega

lemma procCount_pos {l : List WPC} {i : Nat} {ip : String}
    (h : l.get? i = some (WPC.processing ip)) : 1 ≤ procCount l := by
  have hmem : WPC.processing ip ∈ l := List.get?_mem h
  exact List.countP_pos_iff.mpr ⟨WPC.processing ip, hmem, rfl⟩

lemma procCount_replicate (n : Nat) :
    procCount (List.replicate n WPC.atLoop) = 0 := by
  induction n with
  | zero => rfl
  | succ m ih =>
    simp only [List.replicate, procCount, List.countP_cons] at *
    simp [isProcessing, ih]

/-- The run invariant: popped items plus pending items are exactly the
seeded devices; the unfinished counter equals pending items plus
in-flight tasks; completed plus pending plus in-flight equals the seed
count; and every popped item is either in flight or marked done. -/
def PoolInv (devices : List String) (s : PoolSys) : Prop :=
  s.popped ++ s.q.items = devices ∧
  s.q.unfinished = s.q.items.length + procCount s.workers ∧
  s.doneCount + s.q.items.length + procCount s.workers = devices.length ∧
  s.doneCount + procCount s.workers = s.popped.length

lemma poolInit_inv (devices : List String) (configured : Nat) :
    PoolInv devices (poolInit devices configured) := by
  refine ⟨by simp [poolInit], ?_, ?_, ?_⟩ <;>
    simp [poolInit, procCount_replicate]

lemma poolStep_inv {devices : List String} {s t : PoolSys} {i : Nat}
    (hinv : PoolInv devices s) (hstep : poolStep s i = some t) :
    PoolInv devices t := by
  obtain ⟨inv1, inv2, inv3, inv4⟩ := hinv
  unfold poolStep at hstep
  cases hw : s.workers.get? i with
  | none => rw [hw] at hstep; simp at hstep
  | some pc =>
    rw [hw] at hstep
    cases pc with
    | atLoop =>
      by_cases he : s.q.items.isEmpty
      · rw [if_pos he] at hstep
        cases hstep
        have hpc : procCount (s.workers.set i WPC.finished) =
            procCount s.workers := procCount_set_eq hw rfl
        exact ⟨inv1, by simpa [hpc] using inv2, by simpa [hpc] using inv3,
          by simpa [hpc] using inv4⟩
      · rw [if_neg he] at hstep
        cases hstep
        have hpc : procCount (s.workers.set i WPC.atGet) =
            procCount s.workers := procCount_set_eq hw rfl
        exact ⟨inv1, by simpa [hpc] using inv2, by simpa [hpc] using inv3,
          by simpa [hpc] using inv4⟩
    | atGet =>
      cases hitems : s.q.items with
      | nil => rw [hitems] at hstep; simp at hstep
      | cons x rest =>
        rw [hitems] at hstep
        cases hstep
        have hpc : procCount (s.workers.set i (WPC.processing x)) =
            procCount s.workers + 1 := by
          have h0 := procCount_set s.workers i WPC.atGet (WPC.processing x) hw
          simp [isProcessing] at h0
          omega
        rw [hitems] at inv1 inv2 inv3
        refine ⟨?_, ?_, ?_, ?_⟩
        · show (s.popped ++ [x]) ++ rest = devices
          rw [List.append_assoc]
          simpa using inv1
        · show s.q.unfinished = rest.length +
            procCount (s.workers.set i (WPC.processing x))
          simp only [List.length_cons] at inv2
          omega
        · show s.doneCount + rest.length +
            procCount (s.workers.set i (WPC.processing x)) = devices.length
          simp only [List.length_cons] at inv3
          omega
        · show s.doneCount + procCount (s.workers.set i (WPC.processing x)) =
            (s.popped ++ [x]).length
          simp only [List.length_append, List.length_cons, List.length_nil]
          omega
    | processing ip =>
      cases hstep
      have hge := procCount_pos hw
      have hpc : procCount (s.workers.set i WPC.atLoop) + 1 =
          procCount s.workers := by
        have h0 := procCount_set s.workers i (WPC.processing ip) WPC.atLoop hw
        simp [isProcessing] at h0
        omega
      refine ⟨inv1, ?_, ?_, ?_⟩
      · show s.q.unfinished - 1 = s.q.items.length +
          procCount (s.workers.set i WPC.atLoop)
        omega
      · show s.doneCount + 1 + s.q.items.length +
          procCount (s.workers.set i WPC.atLoop) = devices.length
        omega
      · show s.doneCount + 1 + procCount (s.workers.set i WPC.atLoop) =
          s.popped.length
        omega
    | finished => simp at hstep

lemma pool_reaches_inv {devices : List String} {configured : Nat} {s : PoolSys}
    (h : PoolReaches (poolInit devices configured) s) : PoolInv devices s := by
  induction h with
  | refl => exact poolInit_inv devices configured
  | step a b i hab hbc ih => exact poolStep_inv ih hbc

/-- C8: in every reachable state of a run, nothing is ever dropped or
popped twice (popped plus pending is exactly the seeded device list),
every pop is matched by exactly one task_done once its task finishes,
and queue.join() returns exactly when every seeded device has been
popped and marked done and no task is still in flight — never before. -/
theorem queue_drain_iff_all_done
    (devices : List String) (configured : Nat) (s : PoolSys)
    (h : PoolReaches (poolInit devices configured) s) :
    s.popped ++ s.q.items = devices ∧
    s.doneCount + procCount s.workers = s.popped.length ∧
    (queueJoinReturns s ↔
      (s.popped = devices ∧ s.doneCount = devices.length ∧
       procCount s.workers = 0)) := by
  obtain ⟨inv1, inv2, inv3, inv4⟩ := pool_reaches_inv h
  refine ⟨inv1, inv4, ?_⟩
  unfold queueJoinReturns
  constructor
  · intro h0
    rw [inv2] at h0
    have hitems : s.q.items.length = 0 := by omega
    have hnil : s.q.items = [] := List.length_eq_zero.mp hitems
    rw [hnil] at inv1
    refine ⟨by simpa using inv1, by omega, by omega⟩
  · rintro ⟨h1, h2, h3⟩
    rw [inv2]
    omega

/-- Witness for C8: the freshly seeded one-device state is reachable,
and there the counter is not yet zero while nothing has been popped. -/
theorem queue_drain_iff_all_done_witness :
    (poolInit ["10.0.0.1"] 4).popped ++ (poolInit ["10.0.0.1"] 4).q.items =
      ["10.0.0.1"] ∧
    (poolInit ["10.0.0.1"] 4).doneCount +
      procCount (poolInit ["10.0.0.1"] 4).workers =
      (poolInit ["10.0.0.1"] 4).popped.length ∧
    (queueJoinReturns (poolInit ["10.0.0.1"] 4) ↔
      ((poolInit ["10.0.0.1"] 4).popped = ["10.0.0.1"] ∧
       (poolInit ["10.0.0.1"] 4).doneCount = (["10.0.0.1"] : List String).length ∧
       procCount (poolInit ["10.0.0.1"] 4).workers = 0)) :=
  queue_drain_iff_all_done ["10.0.0.1"] 4 (poolInit ["10.0.0.1"] 4)
    (PoolReaches.refl (poolInit ["10.0.0.1"] 4))

/-! ## Claim C9: the lock serializes whole-row writes -/

lemma threadOps_nil : threadOps [] = [] := rfl

lemma threadOps_cons (r : List String) (rs : List (List String)) :
    threadOps (r :: rs) =
      WriterOp.acq :: (r.map WriterOp.put ++ WriterOp.rel :: threadOps rs) := by
  simp [threadOps, callOps, List.append_assoc]

lemma outOf_append (a b : List (Nat × List String)) :
    outOf (a ++ b) = outOf a ++ outOf b := by
  simp [outOf]

lemma outOf_single (i : Nat) (r : List String) :
    outOf [(i, r)] = r.map (fun c => (i, c)) := by
  simp [outOf]

lemma doneRows_append_self (blocks : List (Nat × List String)) (h : Nat)
    (r : List String) :
    doneRows (blocks ++ [(h, r)]) h = doneRows blocks h ++ [r] := by
  simp [doneRows]

lemma doneRows_append_other (blocks : List (Nat × List String)) (h i : Nat)
    (r : List String) (hne : i ≠ h) :
    doneRows (blocks ++ [(h, r)]) i = doneRows blocks i := by
  simp [doneRows, List.filter_append, Ne.symm hne]

lemma sinkStep_acq {s : SinkSys} {j : Nat} {rest : List WriterOp}
    (hpj : s.progs.get? j = some (WriterOp.acq :: rest))
    (hh : s.holder = none) :
    sinkStep s j =
      some { progs := s.progs.set j rest, holder := some j, outp := s.outp } := by
  unfold sinkStep
  rw [hpj, hh]

lemma sinkStep_acq_blocked {s : SinkSys} {j h0 : Nat} {rest : List WriterOp}
    (hpj : s.progs.get? j = some (WriterOp.acq :: rest))
    (hh : s.holder = some h0) :
    sinkStep s j = none := by
  unfold sinkStep
  rw [hpj, hh]

lemma sinkStep_put {s : SinkSys} {j : Nat} {c : String} {rest : List WriterOp}
    (hpj : s.progs.get? j = some (WriterOp.put c :: rest)) :
    sinkStep s j =
      some { progs := s.progs.set j rest, holder := s.holder,
             outp := s.outp ++ [(j, c)] } := by
  unfold sinkStep
  rw [hpj]

lemma sinkStep_rel {s : SinkSys} {j : Nat} {rest : List WriterOp}
    (hpj : s.progs.get? j = some (WriterOp.rel :: rest)) :
    sinkStep s j =
      some { progs := s.progs.set j rest, holder := none, outp := s.outp } := by
  unfold sinkStep
  rw [hpj]

lemma sinkStep_no_prog {s : SinkSys} {j : Nat}
    (hpj : s.progs.get? j = none) : sinkStep s j = none := by
  unfold sinkStep
  rw [hpj]

lemma sinkStep_empty_prog {s : SinkSys} {j : Nat}
    (hpj : s.progs.get? j = some []) : sinkStep s j = none := by
  unfold sinkStep
  rw [hpj]

/-- All threads other than an optional lock holder sit at a call
boundary: their remaining operations are the compiled form of their
remaining write calls, and their completed calls are exactly their rows
among the completed blocks. -/
def idleExcept (rss : List (List (List String)))
    (blocks : List (Nat × List String)) (s : SinkSys) (hold : Option Nat) : Prop :=
  ∀ i rs, some i ≠ hold → rss.get? i = some rs →
    ∃ pend, rs = doneRows blocks i ++ pend ∧
      s.progs.get? i = some (threadOps pend)

/-- Sink invariant: when the lock is free the output is a concatenation
of completed whole rows and every thread is at a call boundary; when
thread h holds the lock the output is completed whole rows followed by a
prefix of the row h is currently writing, h's remaining operations are
the rest of that row's cells, its release, and its later calls, and all
other threads are at call boundaries. -/
def SinkInv (rss : List (List (List String))) (s : SinkSys) : Prop :=
  s.progs.length = rss.length ∧
  ((s.holder = none ∧
    ∃ blocks, s.outp = outOf blocks ∧ idleExcept rss blocks s none) ∨
   (∃ h blocks r1 r2 pend, s.holder = some h ∧
      s.outp = outOf blocks ++ r1.map (fun c => (h, c)) ∧
      rss.get? h = some (doneRows blocks h ++ (r1 ++ r2) :: pend) ∧
      s.progs.get? h =
        some (r2.map WriterOp.put ++ WriterOp.rel :: threadOps pend) ∧
      idleExcept rss blocks s (some h)))

lemma sinkInit_inv (rss : List (List (List String))) :
    SinkInv rss (sinkInit rss) := by
  refine ⟨by simp [sinkInit], Or.inl ⟨rfl, [], rfl, ?_⟩⟩
  intro i rs _ hrs
  refine ⟨rs, by simp [doneRows], ?_⟩
  show (rss.map threadOps).get? i = some (threadOps rs)
  rw [List.get?_map, hrs]
  rfl

lemma sinkStep_inv {rss : List (List (List String))} {s t : SinkSys} {j : Nat}
    (hinv : SinkInv rss s) (hstep : sinkStep s j = some t) : SinkInv rss t := by
  obtain ⟨hlen, hcase⟩ := hinv
  cases hpj : s.progs.get? j with
  | none => rw [sinkStep_no_prog hpj] at hstep; cases hstep
  | some ops =>
  have hjlt : j < s.progs.length := by
    by_contra hge
    rw [List.get?_eq_none.mpr (Nat.le_of_not_lt hge)] at hpj
    cases hpj
  cases hrsJ : rss.get? j with
  | none =>
    have hle : rss.length ≤ j := List.get?_eq_none.mp hrsJ
    omega
  | some rsJ =>
  rcases hcase with ⟨hh, blocks, houtp, hidle⟩ |
    ⟨h0, blocks, r1, r2, pend, hh, houtp, hrsh, hprogh, hidle⟩
  · obtain ⟨pendJ, hpendJ, hprogJ⟩ := hidle j rsJ (by simp) hrsJ
    rw [hpj] at hprogJ
    have hops := Option.some.inj hprogJ
    cases pendJ with
    | nil =>
      rw [threadOps_nil] at hops
      subst hops
      rw [sinkStep_empty_prog hpj] at hstep
      cases hstep
    | cons r pendJ2 =>
      rw [threadOps_cons] at hops
      subst hops
      rw [sinkStep_acq hpj hh] at hstep
      cases hstep
      refine ⟨by simpa using hlen,
        Or.inr ⟨j, blocks, [], r, pendJ2, rfl, ?_, ?_, ?_, ?_⟩⟩
      · simpa using houtp
      · rw [hrsJ, hpendJ]
        rfl
      · show (s.progs.set j _).get? j = _
        exact List.get?_set_eq_of_lt _ hjlt
      · intro i rs hne hrs
        have hne2 : i ≠ j := fun he => hne (by rw [he])
        obtain ⟨p, hp1, hp2⟩ := hidle i rs (by simp) hrs
        refine ⟨p, hp1, ?_⟩
        show (s.progs.set j _).get? i = _
        rw [List.get?_set_ne _ _ (Ne.symm hne2)]
        exact hp2
  · by_cases hjh : j = h0
    · subst hjh
      rw [hpj] at hprogh
      have hops := Option.some.inj hprogh
      cases r2 with
      | nil =>
        simp only [List.map_nil, List.nil_append] at hops
        subst hops
        rw [sinkStep_rel hpj] at hstep
        cases hstep
        refine ⟨by simpa using hlen,
          Or.inl ⟨rfl, blocks ++ [(j, r1)], ?_, ?_⟩⟩
        · show s.outp = _
          rw [outOf_append, outOf_single]
          exact houtp
        · intro i rs _ hrs
          by_cases hij : i = j
          · subst hij
            have hrs2 := Option.some.inj (hrs.symm.trans hrsh)
            refine ⟨pend, ?_, ?_⟩
            · rw [hrs2, doneRows_append_self]
              simp [List.append_assoc]
            · show (s.progs.set i _).get? i = _
              exact List.get?_set_eq_of_lt _ hjlt
          · obtain ⟨p, hp1, hp2⟩ := hidle i rs (by simpa using hij) hrs
            refine ⟨p, ?_, ?_⟩
            · rw [doneRows_append_other _ _ _ _ hij]
              exact hp1
            · show (s.progs.set j _).get? i = _
              rw [List.get?_set_ne _ _ (Ne.symm hij)]
              exact hp2
      | cons c r2' =>
        simp only [List.map_cons, List.cons_append] at hops
        subst hops
        rw [sinkStep_put hpj] at hstep
        cases hstep
        refine ⟨by simpa using hlen,
          Or.inr ⟨j, blocks, r1 ++ [c], r2', pend, hh, ?_, ?_, ?_, ?_⟩⟩
        · show s.outp ++ [(j, c)] = _
          rw [houtp]
          simp [List.append_assoc]
        · rw [hrsh]
          simp [List.append_assoc]
        · show (s.progs.set j _).get? j = _
          exact List.get?_set_eq_of_lt _ hjlt
        · intro i rs hne hrs
          have hne2 : i ≠ j := fun he => hne (by rw [he])
          obtain ⟨p, hp1, hp2⟩ := hidle i rs (by simpa using hne2) hrs
          refine ⟨p, hp1, ?_⟩
          show (s.progs.set j _).get? i = _
          rw [List.get?_set_ne _ _ (Ne.symm hne2)]
          exact hp2
    · obtain ⟨pendJ, hpendJ, hprogJ⟩ := hidle j rsJ (by simpa using hjh) hrsJ
      rw [hpj] at hprogJ
      have hops := Option.some.inj hprogJ
      cases pendJ with
      | nil =>
        rw [threadOps_nil] at hops
        subst hops
        rw [sinkStep_empty_prog hpj] at hstep
        cases hstep
      | cons r pendJ2 =>
        rw [threadOps_cons] at hops
        subst hops
        rw [sinkStep_acq_blocked hpj hh] at hstep
        cases hstep

lemma sink_reaches_inv {rss : List (List (List String))} {s : SinkSys}
    (h : SinkReaches (sinkInit rss) s) : SinkInv rss s := by
  induction h with
  | refl => exact sinkInit_inv rss
  | step a b i hab hbc ih => exact sinkStep_inv ih hbc

/-- C9: whole-row mutual exclusion of the lock-guarded writer.  Writes
only happen inside the with-lock block of one writeheader/writerow call,
so in every reachable state in which the lock is free — in particular
when the run ends — the emitted cell stream is exactly a concatenation
of complete rows, and the rows attributed to each thread are an initial
segment, in order, of that thread's call sequence: no two rows' fields
are ever interleaved. -/
theorem writer_rows_never_interleaved
    (rss : List (List (List String))) (s : SinkSys)
    (h : SinkReaches (sinkInit rss) s) (hfree : s.holder = none) :
    ∃ blocks, s.outp = outOf blocks ∧
      ∀ i rs, rss.get? i = some rs →
        ∃ pend, rs = doneRows blocks i ++ pend := by
  obtain ⟨hlen, hcase⟩ := sink_reaches_inv h
  rcases hcase with ⟨_, blocks, houtp, hidle⟩ |
    ⟨h0, blocks, r1, r2, pend, hh, _⟩
  · exact ⟨blocks, houtp,
      fun i rs hrs => (hidle i rs (by simp) hrs).imp (fun p hp => hp.1)⟩
  · rw [hfree] at hh
    cases hh

/-- Witness for C9: the initial state of a two-thread write schedule is
reachable with a free lock, so its (empty) output splits into complete
rows. -/
theorem writer_rows_never_interleaved_witness :
    ∃ blocks,
      (sinkInit [[["SW1", "10.0.0.1", "OK"]], [["SW3", "10.0.0.3", "OK"]]]).outp =
        outOf blocks ∧
      ∀ i rs,
        ([[["SW1", "10.0.0.1", "OK"]], [["SW3", "10.0.0.3", "OK"]]] :
          List (List (List String))).get? i = some rs →
        ∃ pend, rs = doneRows blocks i ++ pend :=
  writer_rows_never_interleaved
    [[["SW1", "10.0.0.1", "OK"]], [["SW3", "10.0.0.3", "OK"]]]
    (sinkInit [[["SW1", "10.0.0.1", "OK"]], [["SW3", "10.0.0.3", "OK"]]])
    (SinkReaches.refl _) rfl

end CiscoAudit
